import Mathlib

/-!
Verification development for the fund-manager valuation synchronization engine.

Shallow embedding conventions:
* JavaScript numbers are modelled as rationals (`ℚ`).  All quantities involved
  in the verified claims (shares, prices, percentages, timestamps in
  milliseconds) are decimal values, exactly representable in `ℚ`.
* `Math.round x` is `⌊x + 1/2⌋` (round half toward +∞), matching the ECMAScript
  definition of `Math.round`.
* JavaScript truthiness on numbers (`a || b`) is `if a = 0 then b else a`
  (`NaN` inputs are already coerced to `0` at parse boundaries by the
  `parseFloat(x) || 0` pattern of the source, modelled by `Option.getD 0`).
* Fallible asynchronous operations are modelled as `Except String` values (the
  `String` is the JavaScript `Error` message); an operation that resolves
  `null` instead of rejecting is modelled as `Option`.
* The outcome of each network transport event (timeout, script error, payload
  present / absent) is an explicit parameter of the embedded function, since
  the source branches on exactly these events.
-/

namespace FundManager

/-- ECMAScript `Math.round`: `⌊x + 1/2⌋`. -/
def jsRound (q : ℚ) : ℤ := ⌊q + 1/2⌋

/-- JavaScript `a || b` on numbers: `0` is the only falsy numeric value here. -/
def jsOr (a b : ℚ) : ℚ := if a = 0 then b else a

/-- Holding record (storage.js / app state): shares, cost price, and the
valuation fields written by a successful refresh (`lastNav`, `dayChange`,
`estimateTime`), which are absent until first set. -/
structure Holding where
  id : String
  code : String
  name : String
  shares : ℚ
  costPrice : ℚ
  lastNav : Option ℚ
  dayChange : Option ℚ
  estimateTime : Option String
deriving DecidableEq, Repr

/-- ValuationResult: the object resolved by `getFundEstimate` /
`fetchRealTimeEstimate` / `fetchLatestNetWorth`. -/
structure Valuation where
  code : String
  name : String
  estimateNetWorth : ℚ
  dayGrowth : ℚ
  netWorth : ℚ
  time : String
deriving DecidableEq, Repr

namespace Calculator

/-- `Calculator.round(num, decimals)`:
`Math.round(num * 10^decimals) / 10^decimals`. -/
def round (num : ℚ) (decimals : ℕ) : ℚ :=
  (jsRound (num * 10 ^ decimals) : ℚ) / 10 ^ decimals

/-- Result object of `Calculator.calculateProfit`. -/
structure ProfitInfo where
  costAmount : ℚ
  currentAmount : ℚ
  profit : ℚ
  profitRate : ℚ
deriving DecidableEq, Repr

/-- `Calculator.calculateProfit(holding, currentNav)` (calculator.js 13-25). -/
def calculateProfit (holding : Holding) (currentNav : ℚ) : ProfitInfo :=
  let costAmount := holding.shares * holding.costPrice
  let currentAmount := holding.shares * currentNav
  let profit := currentAmount - costAmount
  let profitRate := if costAmount > 0 then profit / costAmount * 100 else 0
  { costAmount := round costAmount 2
    currentAmount := round currentAmount 2
    profit := round profit 2
    profitRate := round profitRate 2 }

/-- `holding.lastNav || holding.costPrice` (an absent `lastNav` and a zero
`lastNav` are both falsy). -/
def navOf (holding : Holding) : ℚ :=
  jsOr (holding.lastNav.getD 0) holding.costPrice

/-- `Calculator.calculateDayProfit(holding, dayChangeRate)` (calculator.js 33-37). -/
def calculateDayProfit (holding : Holding) (dayChangeRate : ℚ) : ℚ :=
  let currentAmount := holding.shares * navOf holding
  round (currentAmount * (dayChangeRate / 100)) 2

/-- Result object of `Calculator.calculateSummary`. -/
structure Summary where
  totalCost : ℚ
  totalCurrent : ℚ
  totalProfit : ℚ
  totalProfitRate : ℚ
  totalDayProfit : ℚ
  dayProfitRate : ℚ
  hasDayProfit : Bool
deriving DecidableEq, Repr

/-- One iteration of the `holdings.forEach` accumulation in
`calculateSummary`: accumulator is `(totalCost, totalCurrent, totalDayProfit,
hasDayProfit)`.  The guard `h.dayChange !== undefined && h.dayChange !== null`
is the `Option` match. -/
def summaryStep (acc : ℚ × ℚ × ℚ × Bool) (h : Holding) : ℚ × ℚ × ℚ × Bool :=
  let profit := calculateProfit h (navOf h)
  match h.dayChange with
  | some dc =>
      (acc.1 + profit.costAmount, acc.2.1 + profit.currentAmount,
       acc.2.2.1 + calculateDayProfit h dc, true)
  | none =>
      (acc.1 + profit.costAmount, acc.2.1 + profit.currentAmount,
       acc.2.2.1, acc.2.2.2)

/-- `Calculator.calculateSummary(holdings)` (calculator.js 44-74). -/
def calculateSummary (holdings : List Holding) : Summary :=
  let acc := holdings.foldl summaryStep (0, 0, 0, false)
  let totalCost := acc.1
  let totalCurrent := acc.2.1
  let totalDayProfit := acc.2.2.1
  let totalProfit := totalCurrent - totalCost
  let totalProfitRate := if totalCost > 0 then totalProfit / totalCost * 100 else 0
  let dayProfitRate := if totalCurrent > 0 then totalDayProfit / totalCurrent * 100 else 0
  { totalCost := round totalCost 2
    totalCurrent := round totalCurrent 2
    totalProfit := round totalProfit 2
    totalProfitRate := round totalProfitRate 2
    totalDayProfit := round totalDayProfit 2
    dayProfitRate := round dayProfitRate 2
    hasDayProfit := acc.2.2.2 }

/-- Transaction record: `type` is the raw string tag used by the source
(`buy` / `sell` / anything else). -/
structure Transaction where
  type : String
  shares : ℚ
  amount : ℚ
deriving DecidableEq, Repr

/-- Result object of `Calculator.calculateAfterTransaction`. -/
structure HoldingDelta where
  shares : ℚ
  costPrice : ℚ
deriving DecidableEq, Repr

/-- `Calculator.calculateAfterTransaction(holding, transaction)`
(calculator.js 82-102).  In the buy branch the source divides by
`newShares`; in `ℚ` division by zero yields `0` where JavaScript yields
`NaN` — the buy claim is only stated for valid buys, where `newShares > 0`. -/
def calculateAfterTransaction (holding : Holding) (t : Transaction) :
    HoldingDelta :=
  let p : ℚ × ℚ :=
    if t.type = "buy" then
      let oldCost := holding.shares * holding.costPrice
      let newCost := t.amount
      let totalCost := oldCost + newCost
      let newShares := holding.shares + t.shares
      (newShares, totalCost / newShares)
    else if t.type = "sell" then
      (holding.shares - t.shares, holding.costPrice)
    else
      (holding.shares, holding.costPrice)
  { shares := max 0 (round p.1 2), costPrice := round p.2 4 }

end Calculator

namespace FundAPI

/-- Transport outcome of the live-estimate request
(`fetchRealTimeEstimate`, calculator.js 474-524): the 3s timer firing, a
script `onerror`, a load with no `jsonpgz_<code>` global defined (provider has
no live estimate, or the payload defined nothing), or a load delivering a raw
payload.  Raw numeric fields are `Option ℚ`: `none` models a missing or
malformed field, whose `parseFloat(x) || 0` parse is `0`. -/
inductive LiveOutcome
  | timeout
  | transportError
  | loadedNoData
  | loaded (name : Option String) (gsz : Option ℚ) (gszzl : Option ℚ)
      (dwjz : Option ℚ) (gztime : Option String)
deriving DecidableEq, Repr

/-- Transport outcome of the latest-settled-net-value request
(`fetchLatestNetWorth`, calculator.js 531-578): timeout, script error, a load
where `Data_netWorthTrend` is missing or empty, or a load delivering the
latest trend entry (`fS_name`, `latest.y`, `latest.equityReturn`). -/
inductive FallbackOutcome
  | timeout
  | transportError
  | loadedNoData
  | loaded (name : Option String) (y : Option ℚ) (equityReturn : Option ℚ)
deriving DecidableEq, Repr

/-- The short live-estimate timeout: `setTimeout(..., 3000)` in
`fetchRealTimeEstimate`. -/
def estimateTimeoutMs : ℕ := 3000

/-- `FundAPI.config.timeout`, used by `fetchLatestNetWorth`. -/
def configTimeoutMs : ℕ := 10000

/-- `FundAPI.fetchRealTimeEstimate(fundCode)` (calculator.js 474-524): every
failure mode resolves `null` (never rejects); a successful load resolves the
parsed valuation with `parseFloat(...) || 0` coercions and the requested
`fundCode` as `code`. -/
def fetchRealTimeEstimate (fundCode : String) (outcome : LiveOutcome) :
    Option Valuation :=
  match outcome with
  | .timeout => none
  | .transportError => none
  | .loadedNoData => none
  | .loaded name gsz gszzl dwjz gztime =>
      some { code := fundCode
             name := name.getD ""
             estimateNetWorth := gsz.getD 0
             dayGrowth := gszzl.getD 0
             netWorth := dwjz.getD 0
             time := gztime.getD "" }

/-- `FundAPI.fetchLatestNetWorth(fundCode)` (calculator.js 531-578): timeout,
transport error and missing data all reject with an `Error`; a successful
load resolves the latest settled entry (its `time` field is the empty
string). -/
def fetchLatestNetWorth (fundCode : String) (outcome : FallbackOutcome) :
    Except String Valuation :=
  match outcome with
  | .timeout => Except.error ("请求超时")
  | .transportError => Except.error ("API 请求失败")
  | .loadedNoData => Except.error ("无法获取净值数据")
  | .loaded name y equityReturn =>
      Except.ok { code := fundCode
                  name := name.getD ""
                  estimateNetWorth := y.getD 0
                  dayGrowth := equityReturn.getD 0
                  netWorth := y.getD 0
                  time := "" }

/-- `FundAPI.getFundEstimate(fundCode)` (calculator.js 451-467): try the
live-estimate path first; if it resolved a (truthy) result return it,
otherwise fall back to the latest-settled-net-value path. -/
def getFundEstimate (fundCode : String) (live : LiveOutcome)
    (fallback : FallbackOutcome) : Except String Valuation :=
  match fetchRealTimeEstimate fundCode live with
  | some estimateResult => Except.ok estimateResult
  | none => fetchLatestNetWorth fundCode fallback

/-- `FundAPI.getBatchFundEstimate(fundCodes)` (fund-api.js 263-278,
calculator.js 678-693): each per-code promise has `.catch(err => null)`
attached (modelled by `Except.toOption`), `Promise.all` collects the
resolutions, and `.filter(r => r !== null)` drops the failures
(`List.filterMap id`).  `fetch` is the settled outcome of
`getFundEstimate(code)` for each code. -/
def getBatchFundEstimate (fetch : String → Except String Valuation)
    (fundCodes : List String) : List Valuation :=
  (fundCodes.map (fun code => (fetch code).toOption)).filterMap id

end FundAPI

namespace Storage

/-- One cache slot written by `setCache` (storage.js 219-234). -/
structure CacheEntry (α : Type) where
  data : α
  updateTime : ℤ
  expireTime : ℤ
deriving DecidableEq, Repr

/-- The cache object is a JavaScript object keyed by string; modelled as an
association list where an update replaces the previous binding. -/
def Cache (α : Type) : Type := List (String × CacheEntry α)

/-- Result of `getCache` (storage.js 194-211): the keyed branch returns the
stored data or `null`; calling it with a falsy key (the empty string) returns
the whole cache object. -/
inductive GetCacheResult (α : Type)
  | hit (data : α)
  | miss
  | wholeCache (cache : Cache α)

/-- `Storage.getCache(key)` at current time `now` (storage.js 194-211): when
`key` is truthy, look the entry up and return its data only when
`item.expireTime > Date.now()`; otherwise `null`. -/
def getCache {α : Type} (cache : Cache α) (key : String) (now : ℤ) :
    GetCacheResult α :=
  if key ≠ "" then
    match cache.find? (fun kv => kv.1 == key) with
    | some kv =>
        if kv.2.expireTime > now then GetCacheResult.hit kv.2.data
        else GetCacheResult.miss
    | none => GetCacheResult.miss
  else GetCacheResult.wholeCache cache

/-- `Storage.setCache(key, data, expireMinutes)` at current time `now`
(storage.js 219-234): overwrite the slot with expiry
`Date.now() + expireMinutes * 60 * 1000`. -/
def setCache {α : Type} (cache : Cache α) (key : String) (data : α)
    (now : ℤ) (expireMinutes : ℤ) : Cache α :=
  (key, { data := data, updateTime := now,
          expireTime := now + expireMinutes * 60 * 1000 }) ::
    cache.filter (fun kv => ¬ kv.1 = key)

end Storage

/-! ## The refresh scheduler (src/unnamed/part_000, `refreshNetValues`)

`AppState` is the module-level mutable state; `refreshNetValues` is embedded
as a state-transition function.  Its remaining effects are recorded in
`RefreshOutcome`:
* `fetched` — whether the per-instrument fan-out was issued at all;
* `saved` — the holdings list passed to `Storage.saveHoldings`, when called;
* `toast` — the toast message shown, when any.

The per-instrument settled outcomes of `Promise.allSettled(codes.map(code =>
FundAPI.getFundEstimate(code)))` are supplied as `fetchResult : String →
Except String Valuation` (`Except.error` is a rejected promise).  A fulfilled
`getFundEstimate` always resolves a truthy object, so `result.value` is never
falsy on the fulfilled branch.

Inside the `try` block, the only statements that can throw are the
DOM-rendering and toast calls that run *after* the holdings update, the
persistence call and the refresh-clock update (`Storage.saveHoldings` catches
internally and returns a boolean).  The parameter `renderThrows` models an
exception at that point; the `catch` block then shows the failure toast and
the `finally` block still runs. -/

/-- Module-level mutable `AppState` of part_000 (lines 354-359). -/
structure AppState where
  holdings : List Holding
  isLoading : Bool
  lastRefreshTime : ℤ
  refreshInterval : ℤ
deriving DecidableEq, Repr

/-- The in-place holding update performed for a fulfilled estimate
(part_000 lines 532-537):
`holding.lastNav = estimate.netWorth || holding.lastNav || holding.costPrice`,
`holding.dayChange = estimate.dayGrowth || 0`,
`holding.estimateTime = estimate.time`. -/
def updateHolding (estimate : Valuation) (h : Holding) : Holding :=
  { h with
    lastNav := some (jsOr estimate.netWorth (jsOr (h.lastNav.getD 0) h.costPrice))
    dayChange := some (jsOr estimate.dayGrowth 0)
    estimateTime := some estimate.time }

/-- `AppState.holdings.find(h => h.code === estimate.code)` followed by the
in-place update: rewrite the first holding whose code matches, report whether
one was found. -/
def updateFirst (estimate : Valuation) : List Holding → List Holding × Bool
  | [] => ([], false)
  | h :: rest =>
      if h.code = estimate.code then (updateHolding estimate h :: rest, true)
      else
        let r := updateFirst estimate rest
        (h :: r.1, r.2)

/-- The `results.forEach` loop of part_000 lines 527-539: process the settled
results in order, updating the matching holding for each fulfilled one and
accumulating the `updated` flag. -/
def applyResults : List Holding → List (Except String Valuation) →
    List Holding × Bool
  | holdings, [] => (holdings, false)
  | holdings, Except.error _ :: rest => applyResults holdings rest
  | holdings, Except.ok estimate :: rest =>
      let u := updateFirst estimate holdings
      let r := applyResults u.1 rest
      (r.1, u.2 || r.2)

/-- Observable outcome of one `refreshNetValues` call. -/
structure RefreshOutcome where
  state : AppState
  fetched : Bool
  saved : Option (List Holding)
  toast : Option String
deriving DecidableEq, Repr

/-- `refreshNetValues()` (part_000 lines 495-563), at current time `now`.
Control flow of the source:
1. `if (AppState.isLoading) return;`
2. `shouldFetch = lastRefreshTime === 0 || now - lastRefreshTime >= refreshInterval`;
   recompute and display the summary from existing data (no state change);
   `if (!shouldFetch) return;`
3. `setRefreshing(true)`, then `try`: empty code list returns early (through
   `finally`); otherwise fan out, apply the settled results, and when any
   holding was updated persist the holdings and set
   `lastRefreshTime = now`; re-render; toast on success.
4. `catch`: failure toast.  `finally`: `setRefreshing(false)`. -/
def refreshNetValues (s : AppState) (now : ℤ)
    (fetchResult : String → Except String Valuation) (renderThrows : Bool) :
    RefreshOutcome :=
  if s.isLoading then
    { state := s, fetched := false, saved := none, toast := none }
  else if s.lastRefreshTime = 0 ∨ now - s.lastRefreshTime ≥ s.refreshInterval then
    let codes := s.holdings.map Holding.code
    if codes.isEmpty then
      { state := { s with isLoading := false },
        fetched := false, saved := none, toast := none }
    else
      let results := codes.map fetchResult
      let applied := applyResults s.holdings results
      let updated := applied.2
      { state :=
          { s with
            holdings := applied.1
            lastRefreshTime := if updated then now else s.lastRefreshTime
            isLoading := false }
        fetched := true
        saved := if updated then some applied.1 else none
        toast :=
          if renderThrows then some "刷新失败，请稍后重试"
          else if updated then some "数据已更新" else none }
  else
    { state := s, fetched := false, saved := none, toast := none }

/-! ## Helper lemmas -/

theorem jsOr_zero_right (a : ℚ) : jsOr a 0 = a := by
  unfold jsOr
  split <;> simp_all

theorem except_toOption_eq_some {ε α : Type} (e : Except ε α) (v : α) :
    e.toOption = some v ↔ e = Except.ok v := by
  cases e <;> simp [Except.toOption]

theorem jsRound_intCast (k : ℤ) : jsRound (k : ℚ) = k := by
  have h : ((k : ℚ) + 1/2) = (1/2 : ℚ) + k := by ring
  rw [jsRound, h, Int.floor_add_int]
  norm_num

theorem round_zero (d : ℕ) : Calculator.round 0 d = 0 := by
  have h : ((0 : ℚ) * 10 ^ d) = ((0 : ℤ) : ℚ) := by norm_num
  rw [Calculator.round, h, jsRound_intCast]
  norm_num

theorem round_int_div_pow (k : ℤ) (d : ℕ) :
    Calculator.round ((k : ℚ) / 10 ^ d) d = (k : ℚ) / 10 ^ d := by
  rw [Calculator.round, div_mul_cancel₀ _ (by positivity : ((10 : ℚ) ^ d) ≠ 0),
    jsRound_intCast]

theorem round_nonneg (q : ℚ) (d : ℕ) (hq : 0 ≤ q) :
    0 ≤ Calculator.round q d := by
  rw [Calculator.round]
  apply div_nonneg _ (by positivity)
  have h1 : (0 : ℚ) ≤ q * 10 ^ d + 1/2 := by positivity
  exact_mod_cast Int.le_floor.mpr (by exact_mod_cast h1)

theorem updateHolding_code (estimate : Valuation) (h : Holding) :
    (updateHolding estimate h).code = h.code := rfl

theorem updateFirst_cons_ne (estimate : Valuation) (h : Holding)
    (t : List Holding) (hne : h.code ≠ estimate.code) :
    updateFirst estimate (h :: t) =
      (h :: (updateFirst estimate t).1, (updateFirst estimate t).2) := by
  simp [updateFirst, hne]

theorem applyResults_cons_ne (h : Holding)
    (rs : List (Except String Valuation)) :
    ∀ (t : List Holding),
    (∀ est, Except.ok est ∈ rs → est.code ≠ h.code) →
    applyResults (h :: t) rs =
      (h :: (applyResults t rs).1, (applyResults t rs).2) := by
  induction rs with
  | nil => intro t _; rfl
  | cons r rest ih =>
    intro t hne
    match r with
    | Except.error e =>
        show applyResults (h :: t) rest = _
        exact ih t (fun est hm => hne est (List.mem_cons_of_mem _ hm))
    | Except.ok est =>
        have hne0 : h.code ≠ est.code :=
          Ne.symm (hne est (List.mem_cons_self _ _))
        simp only [applyResults, updateFirst_cons_ne est h t hne0]
        rw [ih (updateFirst est t).1
          (fun e hm => hne e (List.mem_cons_of_mem _ hm))]

theorem applyResults_closed (f : String → Except String Valuation)
    (hcode : ∀ c est, f c = Except.ok est → est.code = c) :
    ∀ (hs : List Holding), (hs.map Holding.code).Nodup →
    applyResults hs (hs.map (fun h => f h.code)) =
      (hs.map (fun h =>
          match f h.code with
          | Except.ok est => updateHolding est h
          | Except.error _ => h),
       hs.any (fun h => (f h.code).toOption.isSome)) := by
  intro hs
  induction hs with
  | nil => intro _; rfl
  | cons h t ih =>
    intro hnd
    have hnd2 : (t.map Holding.code).Nodup := (List.nodup_cons.mp hnd).2
    have hnotmem : h.code ∉ t.map Holding.code := (List.nodup_cons.mp hnd).1
    have hne : ∀ est, Except.ok est ∈ t.map (fun x => f x.code) →
        est.code ≠ h.code := by
      intro est hm heq
      obtain ⟨x, hx, hfx⟩ := List.mem_map.mp hm
      have hxc : est.code = x.code := hcode _ _ hfx
      exact hnotmem (heq ▸ hxc ▸ List.mem_map_of_mem Holding.code hx)
    cases hfc : f h.code with
    | error e =>
        simp only [List.map_cons, hfc, applyResults]
        rw [applyResults_cons_ne h _ t hne, ih hnd2]
        simp [hfc, Except.toOption]
    | ok est =>
        have hec : h.code = est.code := (hcode _ _ hfc).symm
        have hne2 : ∀ e2, Except.ok e2 ∈ t.map (fun x => f x.code) →
            e2.code ≠ (updateHolding est h).code := by
          simpa [updateHolding_code] using hne
        simp only [List.map_cons, hfc, applyResults, updateFirst, if_pos hec]
        rw [applyResults_cons_ne (updateHolding est h) _ t hne2, ih hnd2]
        simp [hfc, Except.toOption]

theorem summaryFold_flag (hs : List Holding) :
    ∀ init : ℚ × ℚ × ℚ × Bool,
    (hs.foldl Calculator.summaryStep init).2.2.2 =
      (init.2.2.2 || hs.any (fun h => h.dayChange.isSome)) := by
  induction hs with
  | nil => intro init; simp
  | cons h t ih =>
    intro init
    rw [List.foldl_cons, ih]
    cases hdc : h.dayChange <;>
      simp [Calculator.summaryStep, hdc, Bool.or_assoc]

theorem calculateSummary_hasDayProfit (hs : List Holding) :
    (Calculator.calculateSummary hs).hasDayProfit =
      hs.any (fun h => h.dayChange.isSome) := by
  simp [Calculator.calculateSummary, summaryFold_flag hs (0, 0, 0, false)]

/-- Closed form of a `refreshNetValues` call that passes the loading guard and
the interval policy: the holdings are rewritten pointwise by the per-code
settled outcome, the refresh clock advances exactly when some instrument
succeeded, and the loading flag ends up false. -/
theorem refresh_fetch_closed (s : AppState) (now : ℤ)
    (f : String → Except String Valuation) (renderThrows : Bool)
    (hload : s.isLoading = false)
    (hshould : s.lastRefreshTime = 0 ∨ now - s.lastRefreshTime ≥ s.refreshInterval)
    (hnodup : (s.holdings.map Holding.code).Nodup)
    (hcode : ∀ c est, f c = Except.ok est → est.code = c) :
    (refreshNetValues s now f renderThrows).state.holdings =
      s.holdings.map (fun h =>
        match f h.code with
        | Except.ok est => updateHolding est h
        | Except.error _ => h) ∧
    (refreshNetValues s now f renderThrows).state.lastRefreshTime =
      (if s.holdings.any (fun h => (f h.code).toOption.isSome) then now
       else s.lastRefreshTime) ∧
    (refreshNetValues s now f renderThrows).state.isLoading = false := by
  obtain ⟨hs, il, lt, ri⟩ := s
  simp only at hload hshould hnodup ⊢
  subst hload
  cases hs with
  | nil => simp [refreshNetValues, hshould]
  | cons h t =>
      have hmm := applyResults_closed f hcode (h :: t) hnodup
      have hie : ((h :: t).map Holding.code).isEmpty = false := by simp
      simp only [refreshNetValues, Bool.false_eq_true, if_false,
        if_pos hshould, hie]
      rw [List.map_map]
      simp only [Function.comp_def] at hmm ⊢
      simp only [hmm]
      simp

/-- The embedded provider client always reports the requested instrument
code back in its result, discharging the code-preservation hypothesis of the
refresh lemmas for any environment built from `getFundEstimate`. -/
theorem getFundEstimate_code (code : String) (live : FundAPI.LiveOutcome)
    (fb : FundAPI.FallbackOutcome) (est : Valuation)
    (hok : FundAPI.getFundEstimate code live fb = Except.ok est) :
    est.code = code := by
  cases live with
  | loaded name gsz gszzl dwjz gztime =>
      simp only [FundAPI.getFundEstimate, FundAPI.fetchRealTimeEstimate] at hok
      injection hok with h1
      subst h1
      rfl
  | timeout =>
      cases fb <;>
        simp only [FundAPI.getFundEstimate, FundAPI.fetchRealTimeEstimate,
          FundAPI.fetchLatestNetWorth] at hok <;>
        first
        | (injection hok with h1; subst h1; rfl)
        | exact Except.noConfusion hok
  | transportError =>
      cases fb <;>
        simp only [FundAPI.getFundEstimate, FundAPI.fetchRealTimeEstimate,
          FundAPI.fetchLatestNetWorth] at hok <;>
        first
        | (injection hok with h1; subst h1; rfl)
        | exact Except.noConfusion hok
  | loadedNoData =>
      cases fb <;>
        simp only [FundAPI.getFundEstimate, FundAPI.fetchRealTimeEstimate,
          FundAPI.fetchLatestNetWorth] at hok <;>
        first
        | (injection hok with h1; subst h1; rfl)
        | exact Except.noConfusion hok

/-! ## Concrete fixtures used by counterexamples and witnesses -/

def holdingA : Holding :=
  { id := "id-a", code := "000001", name := "基金甲", shares := 100,
    costPrice := 10, lastNav := none, dayChange := none, estimateTime := none }

def holdingB : Holding :=
  { id := "id-b", code := "000002", name := "基金乙", shares := 50,
    costPrice := 2, lastNav := some 3, dayChange := none, estimateTime := none }

def okEstimate : Valuation :=
  { code := "000001", name := "基金甲", estimateNetWorth := 125/10,
    dayGrowth := 5/10, netWorth := 124/10, time := "2024-01-01 15:00" }

/-- A settled-outcome environment where instrument 000001 succeeds and every
other instrument rejects with a timeout. -/
def mixedFetch : String → Except String Valuation := fun code =>
  if code = "000001" then Except.ok okEstimate else Except.error ("请求超时")

def mixedState : AppState :=
  { holdings := [holdingA, holdingB], isLoading := false,
    lastRefreshTime := 0, refreshInterval := 300000 }

def loadingState : AppState :=
  { holdings := [holdingA, holdingB], isLoading := true,
    lastRefreshTime := 0, refreshInterval := 300000 }

theorem mixedFetch_code (c : String) (est : Valuation)
    (hfc : mixedFetch c = Except.ok est) : est.code = c := by
  by_cases hc : c = "000001"
  · subst hc
    simp only [mixedFetch, if_pos rfl] at hfc
    injection hfc with h1
    subst h1
    rfl
  · simp [mixedFetch, hc] at hfc

/-! ## Claims -/

/-- C1 (counterexample): the batch fetch `getBatchFundEstimate` does NOT
return a map covering every requested code.  With codes
`["000001", "000002"]` where 000001 succeeds and 000002 times out, the batch
result contains no entry for 000002: failed instruments are filtered out of
the result instead of being reported per code. -/
theorem batchEstimate_misses_failed_code :
    ¬ (∀ code ∈ ["000001", "000002"],
        ∃ v ∈ FundAPI.getBatchFundEstimate mixedFetch ["000001", "000002"],
          v.code = code) := by
  intro hall
  obtain ⟨v, hv, hvc⟩ := hall "000002" (by simp)
  have hb : FundAPI.getBatchFundEstimate mixedFetch ["000001", "000002"] =
      [okEstimate] := by
    simp [FundAPI.getBatchFundEstimate, mixedFetch, Except.toOption,
      List.filterMap_cons]
  rw [hb] at hv
  simp only [List.mem_singleton] at hv
  subst hv
  exact absurd hvc (by decide)

/-- C1 (amended): the batch fetch never fails as a whole — every
per-instrument failure is caught at the fan-out boundary (`.catch(err =>
null)`) and the batch returns the list of successful ValuationResults only;
failed instruments are filtered out of the result rather than reported as
per-code errors (`v` is in the result exactly when some requested code
fetched it successfully). -/
theorem batchEstimate_collects_successes
    (f : String → Except String Valuation) (codes : List String) :
    FundAPI.getBatchFundEstimate f codes =
      codes.filterMap (fun code => (f code).toOption) ∧
    ∀ v : Valuation, v ∈ FundAPI.getBatchFundEstimate f codes ↔
      ∃ code ∈ codes, f code = Except.ok v := by
  constructor
  · simp [FundAPI.getBatchFundEstimate, List.filterMap_map]
  · intro v
    simp only [FundAPI.getBatchFundEstimate, List.mem_filterMap,
      List.mem_map, id_eq]
    constructor
    · rintro ⟨o, ⟨code, hc, hco⟩, ho⟩
      subst ho
      exact ⟨code, hc, (except_toOption_eq_some _ _).mp hco⟩
    · rintro ⟨code, hc, hcv⟩
      exact ⟨some v, ⟨code, hc, by rw [hcv]; rfl⟩, rfl⟩

/-- C3: while a refresh is in flight (`AppState.isLoading` true), triggering
`refreshNetValues` again is a no-op — no fetch is issued, nothing is
persisted or displayed, and the whole scheduler state (holdings, last refresh
time, loading flag) is returned unchanged. -/
theorem refresh_noop_while_loading (s : AppState) (now : ℤ)
    (f : String → Except String Valuation) (renderThrows : Bool)
    (hload : s.isLoading = true) :
    refreshNetValues s now f renderThrows =
      { state := s, fetched := false, saved := none, toast := none } := by
  simp [refreshNetValues, hload]

theorem refresh_noop_while_loading_witness :
    refreshNetValues loadingState 500 mixedFetch false =
      { state := loadingState, fetched := false, saved := none,
        toast := none } :=
  refresh_noop_while_loading loadingState 500 mixedFetch false rfl

/-- C4: whenever `refreshNetValues` starts from the idle state (loading flag
false), it finishes with the loading flag false again on every execution
path — interval-gated no-fetch, empty code list, success, partial success,
total failure, and an exception thrown mid-refresh (`renderThrows`), because
`setRefreshing(false)` runs in the `finally` block. -/
theorem refresh_returns_idle (s : AppState) (now : ℤ)
    (f : String → Except String Valuation) (renderThrows : Bool)
    (hload : s.isLoading = false) :
    (refreshNetValues s now f renderThrows).state.isLoading = false := by
  simp only [refreshNetValues, hload, Bool.false_eq_true, if_false]
  split
  · split
    · rfl
    · rfl
  · exact hload

theorem refresh_returns_idle_witness :
    (refreshNetValues mixedState 1000 mixedFetch true).state.isLoading =
      false :=
  refresh_returns_idle mixedState 1000 mixedFetch true rfl

/-- C5: the single-instrument fetch `getFundEstimate` first attempts the
live-estimate path, whose timer is 3000 ms; when that path yields no data
(timeout, transport error, or no live payload) it does not fail but falls
back to the latest-settled-net-value path, whose timer is
`config.timeout` = 10000 ms; a timeout or missing data on the fallback path
rejects with a hard error, while a live payload is returned directly. -/
theorem getFundEstimate_fallback_policy :
    FundAPI.estimateTimeoutMs = 3000 ∧
    FundAPI.configTimeoutMs = 10000 ∧
    (∀ code fb, FundAPI.getFundEstimate code FundAPI.LiveOutcome.timeout fb =
        FundAPI.fetchLatestNetWorth code fb) ∧
    (∀ code fb,
      FundAPI.getFundEstimate code FundAPI.LiveOutcome.transportError fb =
        FundAPI.fetchLatestNetWorth code fb) ∧
    (∀ code fb,
      FundAPI.getFundEstimate code FundAPI.LiveOutcome.loadedNoData fb =
        FundAPI.fetchLatestNetWorth code fb) ∧
    (∀ code, FundAPI.fetchLatestNetWorth code FundAPI.FallbackOutcome.timeout =
        Except.error ("请求超时")) ∧
    (∀ code,
      FundAPI.fetchLatestNetWorth code FundAPI.FallbackOutcome.loadedNoData =
        Except.error ("无法获取净值数据")) ∧
    (∀ code name gsz gszzl dwjz gztime fb,
      FundAPI.getFundEstimate code
          (FundAPI.LiveOutcome.loaded name gsz gszzl dwjz gztime) fb =
        Except.ok
          { code := code, name := name.getD "",
            estimateNetWorth := gsz.getD 0, dayGrowth := gszzl.getD 0,
            netWorth := dwjz.getD 0, time := gztime.getD "" }) :=
  ⟨rfl, rfl, fun _ _ => rfl, fun _ _ => rfl, fun _ _ => rfl, fun _ => rfl,
   fun _ => rfl, fun _ _ _ _ _ _ _ => rfl⟩

/-- C2: on batch completion with mixed outcomes, exactly the holdings whose
instrument code succeeded are rewritten in place (last valuation, day-change
rate, observation time — and nothing else), every holding whose lookup failed
is kept in the list unchanged, and the last-successful-refresh time is set to
`now` if and only if at least one instrument succeeded (zero successes leave
the refresh clock unchanged). -/
theorem refresh_partial_success_frame (s : AppState) (now : ℤ)
    (f : String → Except String Valuation) (renderThrows : Bool)
    (hload : s.isLoading = false)
    (hshould : s.lastRefreshTime = 0 ∨ now - s.lastRefreshTime ≥ s.refreshInterval)
    (hnodup : (s.holdings.map Holding.code).Nodup)
    (hcode : ∀ c est, f c = Except.ok est → est.code = c) :
    (refreshNetValues s now f renderThrows).state.holdings =
      s.holdings.map (fun h =>
        match f h.code with
        | Except.ok est => updateHolding est h
        | Except.error _ => h) ∧
    (∀ h ∈ s.holdings, (f h.code).toOption = none →
      h ∈ (refreshNetValues s now f renderThrows).state.holdings) ∧
    (∀ est h, (updateHolding est h).id = h.id ∧
      (updateHolding est h).code = h.code ∧
      (updateHolding est h).name = h.name ∧
      (updateHolding est h).shares = h.shares ∧
      (updateHolding est h).costPrice = h.costPrice) ∧
    (refreshNetValues s now f renderThrows).state.lastRefreshTime =
      (if s.holdings.any (fun h => (f h.code).toOption.isSome) then now
       else s.lastRefreshTime) := by
  obtain ⟨hmap, hclock, -⟩ :=
    refresh_fetch_closed s now f renderThrows hload hshould hnodup hcode
  refine ⟨hmap, ?_, fun est h => ⟨rfl, rfl, rfl, rfl, rfl⟩, hclock⟩
  intro h hmem hfail
  rw [hmap]
  have himg :
      (match f h.code with
        | Except.ok est => updateHolding est h
        | Except.error _ => h) = h := by
    cases hfc : f h.code with
    | ok est => rw [hfc] at hfail; simp [Except.toOption] at hfail
    | error e => rfl
  exact himg ▸ List.mem_map_of_mem _ hmem

theorem refresh_partial_success_frame_witness :
    (refreshNetValues mixedState 1000 mixedFetch false).state.holdings =
      [updateHolding okEstimate holdingA, holdingB] ∧
    (refreshNetValues mixedState 1000 mixedFetch false).state.lastRefreshTime =
      1000 := by
  have hmain := refresh_partial_success_frame mixedState 1000 mixedFetch false
    rfl (Or.inl rfl) (by decide) mixedFetch_code
  constructor
  · rw [hmain.1]
    simp [mixedState, holdingA, holdingB, mixedFetch]
  · rw [hmain.2.2.2]
    simp [mixedState, holdingA, holdingB, mixedFetch, Except.toOption]

/-- C10 (implicit): after a batch refresh, every holding whose fetch
succeeded carries `dayChange = some (estimate.dayGrowth || 0)` — a present
number even when the provider reported a missing, malformed, or zero growth
(those all parse to growth 0, as the `fetchRealTimeEstimate` conjunct shows);
consequently `calculateSummary` over the refreshed holdings reports
`hasDayProfit = true` as soon as one instrument succeeded. -/
theorem refresh_dayChange_present (s : AppState) (now : ℤ)
    (f : String → Except String Valuation) (renderThrows : Bool)
    (hload : s.isLoading = false)
    (hshould : s.lastRefreshTime = 0 ∨ now - s.lastRefreshTime ≥ s.refreshInterval)
    (hnodup : (s.holdings.map Holding.code).Nodup)
    (hcode : ∀ c est, f c = Except.ok est → est.code = c)
    (h0 : Holding) (est0 : Valuation) (hmem : h0 ∈ s.holdings)
    (hok : f h0.code = Except.ok est0) :
    (∀ est h, (updateHolding est h).dayChange = some (jsOr est.dayGrowth 0)) ∧
    (∀ code name gsz dwjz gztime,
      (FundAPI.fetchRealTimeEstimate code
          (FundAPI.LiveOutcome.loaded name gsz none dwjz gztime)).map
        Valuation.dayGrowth = some 0) ∧
    updateHolding est0 h0 ∈ (refreshNetValues s now f renderThrows).state.holdings ∧
    (Calculator.calculateSummary
        (refreshNetValues s now f renderThrows).state.holdings).hasDayProfit =
      true := by
  obtain ⟨hmap, -, -⟩ :=
    refresh_fetch_closed s now f renderThrows hload hshould hnodup hcode
  have hupd : updateHolding est0 h0 ∈
      (refreshNetValues s now f renderThrows).state.holdings := by
    rw [hmap]
    have himg :
        (match f h0.code with
          | Except.ok est => updateHolding est h0
          | Except.error _ => h0) = updateHolding est0 h0 := by
      rw [hok]
    exact himg ▸ List.mem_map_of_mem _ hmem
  refine ⟨fun est h => rfl, fun code name gsz dwjz gztime => rfl, hupd, ?_⟩
  rw [calculateSummary_hasDayProfit]
  refine List.any_eq_true.mpr ⟨updateHolding est0 h0, hupd, ?_⟩
  rfl

theorem refresh_dayChange_present_witness :
    (Calculator.calculateSummary
        (refreshNetValues mixedState 1000 mixedFetch false).state.holdings).hasDayProfit =
      true :=
  (refresh_dayChange_present mixedState 1000 mixedFetch false rfl (Or.inl rfl)
    (by decide) mixedFetch_code holdingA okEstimate
    (List.mem_cons_self _ _) rfl).2.2.2

def buyTx : Calculator.Transaction :=
  { type := "buy", shares := 50, amount := 600 }

def sellTx : Calculator.Transaction :=
  { type := "sell", shares := 150, amount := 0 }

def zeroHolding : Holding :=
  { id := "id-z", code := "000003", name := "零持仓", shares := 0,
    costPrice := 1, lastNav := none, dayChange := none, estimateTime := none }

theorem calculateAfterTransaction_buy (h : Holding)
    (t : Calculator.Transaction) (htype : t.type = "buy") :
    Calculator.calculateAfterTransaction h t =
      { shares := max 0 (Calculator.round (h.shares + t.shares) 2)
        costPrice :=
          Calculator.round
            ((h.shares * h.costPrice + t.amount) /
              (h.shares + t.shares)) 4 } := by
  simp [Calculator.calculateAfterTransaction, htype]

theorem calculateAfterTransaction_sell (h : Holding)
    (t : Calculator.Transaction) (htype : t.type = "sell") :
    Calculator.calculateAfterTransaction h t =
      { shares := max 0 (Calculator.round (h.shares - t.shares) 2)
        costPrice := Calculator.round h.costPrice 4 } := by
  simp [Calculator.calculateAfterTransaction, htype]

/-- C6: `calculateProfit` computes `costAmount = shares * costPrice`,
`currentAmount = shares * currentValuation`,
`profit = currentAmount - costAmount` (each rounded to 2 decimal places), and
`profitRate = profit / costAmount * 100` rounded to 2 places when
`costAmount > 0` and exactly `0` when `costAmount = 0` (no division by
zero); the documented example `{shares:100, costPrice:10.00}` at valuation
`12.50` yields `(1000, 1250, 250, 25)`. -/
theorem calculateProfit_spec :
    (∀ (h : Holding) (nav : ℚ),
      Calculator.calculateProfit h nav =
        { costAmount := Calculator.round (h.shares * h.costPrice) 2
          currentAmount := Calculator.round (h.shares * nav) 2
          profit :=
            Calculator.round (h.shares * nav - h.shares * h.costPrice) 2
          profitRate :=
            if h.shares * h.costPrice > 0 then
              Calculator.round
                ((h.shares * nav - h.shares * h.costPrice) /
                  (h.shares * h.costPrice) * 100) 2
            else 0 }) ∧
    (∀ (h : Holding) (nav : ℚ), h.shares * h.costPrice = 0 →
      (Calculator.calculateProfit h nav).profitRate = 0) ∧
    Calculator.calculateProfit holdingA (25/2) =
      { costAmount := 1000, currentAmount := 1250, profit := 250,
        profitRate := 25 } := by
  have hgen : ∀ (h : Holding) (nav : ℚ),
      Calculator.calculateProfit h nav =
        { costAmount := Calculator.round (h.shares * h.costPrice) 2
          currentAmount := Calculator.round (h.shares * nav) 2
          profit :=
            Calculator.round (h.shares * nav - h.shares * h.costPrice) 2
          profitRate :=
            if h.shares * h.costPrice > 0 then
              Calculator.round
                ((h.shares * nav - h.shares * h.costPrice) /
                  (h.shares * h.costPrice) * 100) 2
            else 0 } := by
    intro h nav
    simp only [Calculator.calculateProfit]
    rw [apply_ite (fun q => Calculator.round q 2), round_zero]
  refine ⟨hgen, ?_, ?_⟩
  · intro h nav hz
    rw [hgen h nav]
    simp [hz]
  · simp [Calculator.calculateProfit, Calculator.round, jsRound, holdingA]
    norm_num

theorem calculateProfit_spec_witness :
    (Calculator.calculateProfit zeroHolding 5).profitRate = 0 :=
  calculateProfit_spec.2.1 zeroHolding 5 (by norm_num [zeroHolding])

/-- C7: a valid buy transaction yields
`shares = oldShares + transactionShares` (rounded to 2 places) and
`costPrice = (oldShares * oldCostPrice + transactionAmount) /
(oldShares + transactionShares)` — a shares-weighted average rounded to 4
places. -/
theorem buy_rebases_weighted_average (h : Holding)
    (t : Calculator.Transaction) (htype : t.type = "buy")
    (hsh : 0 ≤ h.shares) (hts : 0 < t.shares) :
    Calculator.calculateAfterTransaction h t =
      { shares := Calculator.round (h.shares + t.shares) 2
        costPrice :=
          Calculator.round
            ((h.shares * h.costPrice + t.amount) /
              (h.shares + t.shares)) 4 } := by
  rw [calculateAfterTransaction_buy h t htype]
  congr 1
  exact max_eq_right (round_nonneg _ _ (by linarith))

theorem buy_rebases_weighted_average_witness :
    Calculator.calculateAfterTransaction holdingA buyTx =
      { shares := 150, costPrice := 106667/10000 } := by
  rw [buy_rebases_weighted_average holdingA buyTx rfl
    (by norm_num [holdingA]) (by norm_num [buyTx])]
  simp [Calculator.round, jsRound, holdingA, buyTx]
  norm_num [Int.floor_eq_iff]

/-- C8: a sell transaction (with shares held to the 2-decimal invariant and
cost price to the 4-decimal invariant) yields
`shares = max(0, oldShares - transactionShares)` — even for oversized sells —
and leaves the cost price unchanged; moreover the resulting shares are never
negative for any holding and transaction whatsoever. -/
theorem sell_caps_shares_at_zero (h : Holding) (t : Calculator.Transaction)
    (htype : t.type = "sell") (a b c : ℤ)
    (hsh : h.shares = (a : ℚ) / 10 ^ 2) (hts : t.shares = (b : ℚ) / 10 ^ 2)
    (hcp : h.costPrice = (c : ℚ) / 10 ^ 4) :
    Calculator.calculateAfterTransaction h t =
      { shares := max 0 (h.shares - t.shares), costPrice := h.costPrice } ∧
    (∀ (h2 : Holding) (t2 : Calculator.Transaction),
      0 ≤ (Calculator.calculateAfterTransaction h2 t2).shares) := by
  constructor
  · have hdiff : h.shares - t.shares = ((a - b : ℤ) : ℚ) / 10 ^ 2 := by
      rw [hsh, hts]
      push_cast
      ring
    rw [calculateAfterTransaction_sell h t htype, hdiff, hcp,
      round_int_div_pow, round_int_div_pow]
  · intro h2 t2
    exact le_max_left 0 _

theorem sell_caps_shares_at_zero_witness :
    Calculator.calculateAfterTransaction holdingA sellTx =
      { shares := 0, costPrice := 10 } := by
  have hmain := sell_caps_shares_at_zero holdingA sellTx rfl 10000 15000 100000
    (by norm_num [holdingA]) (by norm_num [sellTx]) (by norm_num [holdingA])
  rw [hmain.1]
  norm_num [holdingA, sellTx]

/-- C9: a cache entry written by `setCache` at time `now` with a TTL of `m`
minutes is a miss for every `getCache` at or after `now + m * 60 * 1000`
(even though the entry was never deleted), and a hit returning the stored
data for every `getCache` before that expiry — expired entries are never
returned as stale hits. -/
theorem cache_ttl_expiry {α : Type} (cache : Storage.Cache α) (key : String)
    (data : α) (now m t1 t2 : ℤ) (hkey : key ≠ "")
    (hexp : now + m * 60 * 1000 ≤ t1) (hpre : t2 < now + m * 60 * 1000) :
    Storage.getCache (Storage.setCache cache key data now m) key t1 =
      Storage.GetCacheResult.miss ∧
    Storage.getCache (Storage.setCache cache key data now m) key t2 =
      Storage.GetCacheResult.hit data := by
  have hf : List.find? (fun kv => kv.1 == key)
      ((key, ({ data := data, updateTime := now,
                expireTime := now + m * 60 * 1000 } : Storage.CacheEntry α)) ::
        List.filter (fun kv => decide ¬ kv.1 = key) cache) =
      some (key, { data := data, updateTime := now,
                   expireTime := now + m * 60 * 1000 }) :=
    List.find?_cons_of_pos _ (by simp)
  constructor
  · simp only [Storage.getCache, Storage.setCache, if_pos hkey, hf]
    exact if_neg (not_lt.mpr hexp)
  · simp only [Storage.getCache, Storage.setCache, if_pos hkey, hf]
    exact if_pos hpre

theorem cache_ttl_expiry_witness :
    Storage.getCache
        (Storage.setCache ([] : Storage.Cache ℚ) "000001" (3/2) 0 5)
        "000001" 300000 = Storage.GetCacheResult.miss ∧
    Storage.getCache
        (Storage.setCache ([] : Storage.Cache ℚ) "000001" (3/2) 0 5)
        "000001" 299999 = Storage.GetCacheResult.hit (3/2) :=
  cache_ttl_expiry [] "000001" (3/2) 0 5 300000 299999 (by decide)
    (by norm_num) (by norm_num)

end FundManager
